import Mathlib

/-!
Shallow embedding of the health-bridge-api worker (`src/index.ts` plus the
`weight` table migration) and proofs about its ingestion and query behaviour.

Numbers are modelled as rationals (`ℚ`); request bodies arrive through JSON,
whose numerals are finite decimals, so every numeric value the handlers see
is a rational.  Strings use Lean `String` with byte-wise order, matching
SQLite's BINARY collation on `TEXT` columns.
-/

namespace HealthBridge

/-- A row of the `weight` table (migrations/0001_init_weight_table.sql):
`uuid TEXT PRIMARY KEY, startDate, endDate TEXT, kg REAL, sourceBundleId TEXT,
createdAt, updatedAt TEXT`. -/
structure Row where
  uuid : String
  startDate : String
  endDate : String
  kg : ℚ
  sourceBundleId : String
  createdAt : String
  updatedAt : String
deriving DecidableEq, Repr

/-- The value `requireBearer` (index.ts:51-60) returns: the JS literal `true`
(no token configured), the JS `null` (auth passed), or the 401 JSON response.
The POST handler tests this value for JS truthiness. -/
inductive AuthOutcome where
  | vtrue
  | vnull
  | resp401
deriving DecidableEq, Repr

/-- JS truthiness of the value returned by `requireBearer`: `null` is falsy,
`true` and a Response object are truthy. -/
def AuthOutcome.truthy : AuthOutcome → Bool
  | .vnull => false
  | _ => true

/-- JS `String.prototype.trim`: strip leading and trailing whitespace.  The
code-unit classes JS trims beyond these never occur in the payloads modelled
here. -/
def isJsWhitespace (c : Char) : Bool :=
  c == ' ' || c == '\t' || c == '\n' || c == '\r'

/-- `s.trim()` modelled on the character sequence. -/
def jsTrim (s : String) : String :=
  String.mk (((s.data.dropWhile isJsWhitespace).reverse.dropWhile isJsWhitespace).reverse)

/-- index.ts:51-60.  `APP_TOKEN` unset (`none`) or the empty string is falsy
(`!expected`), so the function returns the JS literal `true`.  Otherwise the
`authorization` header (defaulted to `""`) must start with `"Bearer "` and its
remainder after `slice(7)` must equal the token exactly.  `startsWith` and
`slice` are modelled on the character sequence. -/
def requireBearer (appToken authHeader : Option String) : AuthOutcome :=
  match appToken with
  | none => .vtrue
  | some t =>
    if t = "" then .vtrue
    else
      let auth := (authHeader.getD "").data
      if auth.take 7 == "Bearer ".data && auth.drop 7 == t.data then .vnull
      else .resp401

/-- The conversion factor 2.20462 lb/kg used at index.ts:114 and index.ts:201. -/
def lbPerKg : ℚ := 220462 / 100000

/-- `Number(x.toFixed(2))`: round to 2 decimal places; on a tie JS `toFixed`
picks the larger integer, i.e. `⌊100x + 1/2⌋`. -/
def round2 (x : ℚ) : ℚ := (⌊100 * x + 1 / 2⌋ : ℚ) / 100

/-- index.ts:114-115: `const kg = body.unit === "lb" ? body.weight / 2.20462 :
body.weight; const kgFixed = Number(kg.toFixed(2));`. -/
def toKg (w : ℚ) (unit : String) : ℚ :=
  round2 (if unit = "lb" then w / lbPerKg else w)

/-- index.ts:201: `lb: Number((row.kg * 2.20462).toFixed(2))`. -/
def toLb (kg : ℚ) : ℚ := round2 (kg * lbPerKg)

/-- The raw JSON body of a POST /health/weight request, typed per field:
`none` means the key is absent (or not of the required JSON type, which Zod
rejects the same way). -/
structure RawBody where
  weight : Option ℚ
  unit : Option String
  timestamp : Option String
  uuid : Option String
  startDate : Option String
  endDate : Option String
  sourceBundleId : Option String
deriving DecidableEq, Repr

/-- The result of `WeightIn.parse`: `weight`, `unit` and `timestamp` are
required, the rest stay optional (index.ts:14-22). -/
structure ParsedBody where
  weight : ℚ
  unit : String
  timestamp : String
  uuid : Option String
  startDate : Option String
  endDate : Option String
  sourceBundleId : Option String
deriving DecidableEq, Repr

/-- `WeightIn.parse` (index.ts:14-22, applied at index.ts:106): requires a
numeric `weight`, a `unit` drawn from the enum {"lb","kg"}, and a string
`timestamp`; optional fields pass through untouched.  JSON numerals are always
finite, and Zod's `z.number()` imposes no sign or magnitude restriction. -/
def zodParse (b : RawBody) : Option ParsedBody :=
  match b.weight, b.unit, b.timestamp with
  | some w, some u, some ts =>
    if u = "lb" ∨ u = "kg" then
      some ⟨w, u, ts, b.uuid, b.startDate, b.endDate, b.sourceBundleId⟩
    else none
  | _, _, _ => none

/-- index.ts:118-125: `let uuid = body.uuid?.trim(); if (!uuid) uuid =
crypto.randomUUID()` — the freshly generated identifier is passed in as
`fresh`. -/
def resolveUuid (o : Option String) (fresh : String) : String :=
  match o with
  | none => fresh
  | some s => if jsTrim s = "" then fresh else jsTrim s

/-- index.ts:128-130: `x?.trim() || d` — take the trimmed supplied value,
falling back to `d` when the field is absent or trims to the empty string. -/
def jsTrimOr (o : Option String) (d : String) : String :=
  match o with
  | none => d
  | some s => if jsTrim s = "" then d else jsTrim s

/-- The prepared statement at index.ts:146-160:
`INSERT INTO weight (uuid, startDate, endDate, kg, sourceBundleId, createdAt,
updatedAt) VALUES (?1,...,?7) ON CONFLICT(uuid) DO UPDATE SET kg=excluded.kg,
updatedAt=excluded.updatedAt`, with `?6 = ?7 = currentTime`.  On conflict only
`kg` and `updatedAt` are written; otherwise the full row is inserted. -/
def upsertWeight (db : List Row) (u s e : String) (k : ℚ) (src now : String) :
    List Row :=
  if db.any (fun r => r.uuid == u) then
    db.map (fun r => if r.uuid == u then { r with kg := k, updatedAt := now } else r)
  else
    db ++ [⟨u, s, e, k, src, now, now⟩]

/-- SQLite lookup of the (at most one, by PRIMARY KEY) row keyed by `u`. -/
def lookupW (db : List Row) (u : String) : Option Row :=
  db.find? (fun r => r.uuid == u)

/-- The value the POST /health/weight handler (index.ts:94-168) returns. -/
inductive PostOut where
  /-- `c.json({ ok: true })` (index.ts:162). -/
  | ok200
  /-- `c.json({ ok: false, error: msg }, 400)` (index.ts:110, 140). -/
  | bad400 (msg : String)
  /-- the 401 response produced inside `requireBearer` (index.ts:57). -/
  | unauthorized401
  /-- the handler returned the bare JS literal `true` that `requireBearer`
  produced for "no token configured" — not a Response (index.ts:96-97). -/
  | rawTrue
deriving DecidableEq, Repr

/-- The POST /health/weight handler (index.ts:94-168).  `fresh` stands for the
random UUID generated when the payload carries none; `now` for
`new Date().toISOString()`.  Returns the handler's value and the store after
the request. -/
def postWeight (appToken authHeader : Option String) (raw : RawBody)
    (fresh now : String) (db : List Row) : PostOut × List Row :=
  let af := requireBearer appToken authHeader
  if af.truthy then
    (match af with
     | .resp401 => (.unauthorized401, db)
     | _ => (.rawTrue, db))
  else
    match zodParse raw with
    | none => (.bad400 "Invalid JSON or missing required fields", db)
    | some body =>
      let kgFixed := toKg body.weight body.unit
      let uuid := resolveUuid body.uuid fresh
      let startDate := jsTrimOr body.startDate body.timestamp
      let endDate := jsTrimOr body.endDate body.timestamp
      let sourceBundleId := jsTrimOr body.sourceBundleId "manual-entry"
      -- index.ts:137-142: reject any empty bound value.  `kgFixed` is a JS
      -- number, never `undefined`/`null`/`""`, so only the strings can trip.
      if uuid = "" then (.bad400 "Invalid value for uuid", db)
      else if startDate = "" then (.bad400 "Invalid value for startDate", db)
      else if endDate = "" then (.bad400 "Invalid value for endDate", db)
      else if sourceBundleId = "" then (.bad400 "Invalid value for sourceBundleId", db)
      else (.ok200, upsertWeight db uuid startDate endDate kgFixed sourceBundleId now)

/-- The numeric value of one decimal digit, `none` for any other character. -/
def decDigit? (c : Char) : Option Nat :=
  if '0' ≤ c && c ≤ '9' then some (c.toNat - '0'.toNat) else none

/-- The value of a digit string, `none` when any character is not a digit. -/
def digitsVal? (cs : List Char) : Option Nat :=
  cs.foldl
    (fun acc c =>
      match acc, decDigit? c with
      | some n, some d => some (10 * n + d)
      | _, _ => none)
    (some 0)

/-- JS `Number(s)` restricted to the fragment the limit parameter exercises:
the empty string is 0, optionally minus-signed decimal integer strings convert
to their value, anything else to NaN (`none`). -/
def jsToNumber (s : String) : Option ℚ :=
  match s.data with
  | [] => some 0
  | '-' :: rest =>
    if rest.isEmpty then none
    else (digitsVal? rest).map (fun n => -(n : ℚ))
  | cs => (digitsVal? cs).map (fun n => (n : ℚ))

/-- JS `Math.min(500, x)`: NaN propagates. -/
def jsMin500 : Option ℚ → Option ℚ
  | none => none
  | some x => some (min 500 x)

/-- JS `Math.max(1, x)`: NaN propagates. -/
def jsMax1 : Option ℚ → Option ℚ
  | none => none
  | some x => some (max 1 x)

/-- index.ts:192: `Math.max(1, Math.min(500, Number(url.searchParams.get
("limit") ?? "30")))`; `none` is NaN. -/
def effectiveLimit (q : Option String) : Option ℚ :=
  jsMax1 (jsMin500 (jsToNumber (q.getD "30")))

/-- One element of the GET response array (index.ts:198-202). -/
structure WeightRowOut where
  date : String
  kg : ℚ
  lb : ℚ
deriving DecidableEq, Repr

/-- index.ts:198-202: project a stored row to `{date, kg, lb}`, deriving `lb`
from the stored kg at response time. -/
def projectRow (r : Row) : WeightRowOut :=
  ⟨r.startDate, r.kg, toLb r.kg⟩

/-- The SELECT at index.ts:194-202: `SELECT startDate AS date, kg FROM weight
ORDER BY startDate DESC LIMIT ?1`, then the `.map` projection.  Descending
order on the TEXT column is modelled by sorting with `b.startDate ≤
a.startDate`. -/
def listRecent (db : List Row) (lim : Nat) : List WeightRowOut :=
  ((db.insertionSort (fun a b => b.startDate ≤ a.startDate)).take lim).map projectRow

/-- The GET /health/weight response: `c.json` with its default 200 status. -/
structure GetResp where
  status : Nat
  rows : List WeightRowOut
deriving DecidableEq, Repr

set_option linter.unusedVariables false

/-- The GET /health/weight handler (index.ts:189-210).  It never consults
`appToken`/`authHeader` (no `requireBearer` call), but receives them because
the surrounding worker has them available.  `fetch` is the outcome of the D1
read; a NaN limit makes the bind/query throw.  Any thrown error lands in the
catch branch (index.ts:205-209), which returns `c.json([])` — status 200. -/
def getWeight (appToken authHeader : Option String)
    (fetch : Except String (List Row)) (limitQ : Option String) : GetResp :=
  match effectiveLimit limitQ with
  | none => ⟨200, []⟩
  | some q =>
    match fetch with
    | .error _ => ⟨200, []⟩
    | .ok db => ⟨200, listRecent db q.floor.toNat⟩

/-- A canonical batch sample (spec §4.2b), already validated and normalized. -/
structure Sample where
  uuid : String
  startDate : String
  endDate : String
  kg : ℚ
  sourceBundleId : String
deriving DecidableEq, Repr

/-- The import endpoint's JSON success body `{ok:true, upserts:N}`. -/
structure ImportResp where
  ok : Bool
  upserts : Nat
deriving DecidableEq, Repr

/-- Modelled from the spec: the repository's `POST /health/import` batch
endpoint is not among the provided source files (only `POST /health/weight`
and `GET /health/weight` appear in src/index.ts).  Per spec §6 and §4.3 it
applies each submitted sample as an atomic per-row upsert and responds
`200 {ok:true, upserts:N}` where N is the count of samples submitted; an empty
batch is a no-op reporting zero. -/
def importHandler (db : List Row) (samples : List Sample) (now : String) :
    ImportResp × List Row :=
  (⟨true, samples.length⟩,
   samples.foldl
     (fun d s => upsertWeight d s.uuid s.startDate s.endDate s.kg s.sourceBundleId now)
     db)

/-! ## Helper lemmas -/

/-- `round2` is rounding `100·x` to the nearest integer (ties upward),
divided by 100. -/
lemma round2_eq_round (x : ℚ) : round2 x = ((round (100 * x) : ℤ) : ℚ) / 100 := by
  rw [round2, round_eq]

/-- When no row carries the key, the upsert appends the fully populated new
row (with `createdAt = updatedAt = now`). -/
lemma upsertWeight_of_lookup_none (db : List Row) (u s e : String) (k : ℚ)
    (src now : String) (hnone : lookupW db u = none) :
    upsertWeight db u s e k src now = db ++ [⟨u, s, e, k, src, now, now⟩] := by
  have hany : ¬ (db.any (fun r => r.uuid == u) = true) := by
    intro h
    obtain ⟨x, hx, hpx⟩ := List.any_eq_true.1 h
    exact (List.find?_eq_none.1 hnone x hx) hpx
  simp [upsertWeight, hany]

/-- Converting a magnitude tagged `"kg"` is just the 2-decimal rounding. -/
lemma toKg_kg (w : ℚ) : toKg w "kg" = round2 w := by
  rw [toKg, if_neg (by decide : ¬ ("kg" : String) = "lb")]

/-- Converting a magnitude tagged `"lb"` divides by 2.20462, then rounds. -/
lemma toKg_lb (w : ℚ) : toKg w "lb" = round2 (w / lbPerKg) := by
  rw [toKg, if_pos rfl]

/-- The conflict-branch row update never changes the `uuid` field. -/
lemma upd_uuid (u : String) (k : ℚ) (now : String) (r : Row) :
    (if r.uuid == u then { r with kg := k, updatedAt := now } else r).uuid = r.uuid := by
  split <;> rfl

/-- Looking up after the conflict branch's map commutes with the map. -/
lemma lookupW_map_upd (db : List Row) (u v : String) (k : ℚ) (now : String) :
    lookupW (db.map (fun r => if r.uuid == u then { r with kg := k, updatedAt := now } else r)) v
      = (lookupW db v).map
          (fun r => if r.uuid == u then { r with kg := k, updatedAt := now } else r) := by
  unfold lookupW
  rw [List.find?_map]
  have hfun : ((fun r : Row => r.uuid == v)
        ∘ (fun r => if r.uuid == u then { r with kg := k, updatedAt := now } else r))
      = (fun r : Row => r.uuid == v) := by
    funext r
    simp only [Function.comp]
    rw [upd_uuid]
  rw [hfun]

/-! ## Claim C1 -/

/-- Claim C1 as stated is false: re-ingesting an existing `id` with new
`startTime`/`endTime`/`sourceId` does not overwrite them — the `ON CONFLICT`
clause only sets `kg` and `updatedAt`.  Concretely, a stored row with
`startDate = "S1"` keeps it after an upsert that supplies `"S2"`. -/
theorem upsert_conflict_keeps_old_fields_cex :
    lookupW (upsertWeight [⟨"a", "S1", "E1", 70, "src1", "c0", "u0"⟩]
        "a" "S2" "E2" 71 "src2" "t1") "a"
      = some ⟨"a", "S1", "E1", 71, "src1", "c0", "t1"⟩ ∧ ("S1" : String) ≠ "S2" := by
  exact ⟨rfl, by decide⟩

/-- Claim C1 (amended): for an `id` already in the weight table, the upsert
overwrites only `massKg` (`kg`) and `updatedAt`, leaving `startTime`,
`endTime`, `sourceId` and `createdAt` unchanged; for an `id` not yet present
it inserts all fields with `createdAt = updatedAt`; rows keyed by any other
`id` are untouched. -/
theorem upsert_semantics (db : List Row) (u s e : String) (k : ℚ) (src now : String) :
    (∀ r, lookupW db u = some r →
      lookupW (upsertWeight db u s e k src now) u = some { r with kg := k, updatedAt := now })
    ∧ (lookupW db u = none →
      upsertWeight db u s e k src now = db ++ [⟨u, s, e, k, src, now, now⟩])
    ∧ (∀ v, v ≠ u → lookupW (upsertWeight db u s e k src now) v = lookupW db v) := by
  refine ⟨?_, ?_, ?_⟩
  · intro r hr
    have hr' : db.find? (fun r => r.uuid == u) = some r := hr
    have hmem := List.mem_of_find?_eq_some hr'
    have hp : (r.uuid == u) = true :=
      List.find?_some (p := fun r : Row => r.uuid == u) hr'
    have hany : db.any (fun r => r.uuid == u) = true :=
      List.any_eq_true.2 ⟨r, hmem, hp⟩
    simp only [upsertWeight, hany, if_true]
    rw [lookupW_map_upd, hr]
    simp only [Option.map_some']
    rw [if_pos hp]
  · exact upsertWeight_of_lookup_none db u s e k src now
  · intro v hv
    unfold upsertWeight
    by_cases hany : db.any (fun r => r.uuid == u) = true
    · simp only [hany, if_true]
      rw [lookupW_map_upd]
      cases hw : lookupW db v with
      | none => rfl
      | some w =>
        have hw' : db.find? (fun r => r.uuid == v) = some w := hw
        have hwv : w.uuid = v := by
          have := List.find?_some (p := fun r : Row => r.uuid == v) hw'
          simpa using this
        have hne : ¬ ((w.uuid == u) = true) := by
          simp only [beq_iff_eq, hwv]
          exact hv
        simp only [Option.map_some']
        rw [if_neg hne]
    · rw [if_neg hany]
      unfold lookupW
      rw [List.find?_append]
      cases hw : db.find? (fun r => r.uuid == v) with
      | some w => simp
      | none =>
        simp only [Option.or]
        simp only [List.find?]
        have : (u == v) = false := by
          simp
          exact fun h => hv h.symm
        simp [this]

/-- Witness for `upsert_semantics` at a concrete one-row store. -/
theorem upsert_semantics_witness :
    lookupW (upsertWeight [⟨"a", "S1", "E1", 70, "src1", "c0", "u0"⟩]
        "a" "S2" "E2" 71 "src2" "t1") "a"
      = some { (⟨"a", "S1", "E1", 70, "src1", "c0", "u0"⟩ : Row) with
                 kg := 71, updatedAt := "t1" } :=
  (upsert_semantics [⟨"a", "S1", "E1", 70, "src1", "c0", "u0"⟩]
      "a" "S2" "E2" 71 "src2" "t1").1
    ⟨"a", "S1", "E1", 70, "src1", "c0", "u0"⟩ rfl

/-! ## Claim C2 -/

/-- Claim C2 fails on the code: when no `APP_TOKEN` is configured,
`requireBearer` returns the JS literal `true` to mean "skip auth" (its own
comment, index.ts:53), but the POST handler's `if (authFail) return authFail`
treats any truthy value as a failure and returns that bare `true` instead of
proceeding — no row is written and no `200 {ok:true}` is produced.  With a
token configured, a request lacking the header does get 401 as claimed. -/
theorem post_no_token_returns_rawTrue :
    postWeight none none
        ⟨some 80, some "kg", some "2025-01-01T00:00:00Z", some "id1", none, none, none⟩
        "fresh" "T0" []
      = (.rawTrue, [])
    ∧ postWeight none (some "Bearer x")
        ⟨some 80, some "kg", some "2025-01-01T00:00:00Z", some "id1", none, none, none⟩
        "fresh" "T0" []
      = (.rawTrue, [])
    ∧ postWeight (some "tok") none
        ⟨some 80, some "kg", some "2025-01-01T00:00:00Z", some "id1", none, none, none⟩
        "fresh" "T0" []
      = (.unauthorized401, []) := by
  exact ⟨rfl, rfl, rfl⟩

/-! ## Claim C3 -/

/-- Claim C3 as stated is false: `z.number()` imposes no positivity check and
the handler never tests the magnitude's sign, so a payload with `weight = -5`
and `unit = "kg"` passes validation, is stored, and the stored `massKg` is
`-5` — not a positive number. -/
theorem post_accepts_nonpositive_weight_cex :
    postWeight (some "t") (some "Bearer t")
        ⟨some (-5), some "kg", some "2025-01-01T00:00:00Z", some "id1", none, none, none⟩
        "fresh" "NOW" []
      = (.ok200,
         [⟨"id1", "2025-01-01T00:00:00Z", "2025-01-01T00:00:00Z", toKg (-5) "kg",
           "manual-entry", "NOW", "NOW"⟩])
    ∧ toKg (-5) "kg" = -5 ∧ (-5 : ℚ) < 0 := by
  refine ⟨rfl, ?_, by norm_num⟩
  rw [toKg_kg]
  norm_num [round2]

/-- Claim C3 (amended): payloads whose `weight` is missing or not a JSON
number, whose `unit` is missing or outside {"lb","kg"}, or whose `timestamp`
is missing fail Zod validation and yield a 400 with no row written; but
non-positive (and, were JSON able to carry them, non-finite) magnitudes are
NOT rejected, so a stored `massKg` is only guaranteed to be the 2-decimal
rounding of the converted magnitude, not positive. -/
theorem post_validation_rejects_malformed (tok auth : Option String) (raw : RawBody)
    (fresh now : String) (db : List Row)
    (hauth : requireBearer tok auth = .vnull)
    (hparse : zodParse raw = none) :
    postWeight tok auth raw fresh now db
      = (.bad400 "Invalid JSON or missing required fields", db) := by
  simp [postWeight, hauth, AuthOutcome.truthy, hparse]

/-- Witness for `post_validation_rejects_malformed`: unit `"stone"` is
rejected with 400 and the store is unchanged. -/
theorem post_validation_rejects_malformed_witness :
    postWeight (some "t") (some "Bearer t")
        ⟨some 80, some "stone", some "2025-01-01T00:00:00Z", none, none, none, none⟩
        "fresh" "NOW" []
      = (.bad400 "Invalid JSON or missing required fields", []) :=
  post_validation_rejects_malformed (some "t") (some "Bearer t")
    ⟨some 80, some "stone", some "2025-01-01T00:00:00Z", none, none, none, none⟩
    "fresh" "NOW" [] rfl rfl

/-! ## Claim C6 -/

/-- Rounding to 2 decimals moves a value by at most half a cent. -/
lemma abs_round2_sub (x : ℚ) : |round2 x - x| ≤ 1 / 200 := by
  rw [round2_eq_round]
  have h := abs_sub_round (α := ℚ) (100 * x)
  have heq : ((round (100 * x) : ℤ) : ℚ) / 100 - x
      = -(100 * x - ((round (100 * x) : ℤ) : ℚ)) / 100 := by ring
  rw [heq, abs_div, abs_neg]
  rw [show |(100 : ℚ)| = 100 by norm_num]
  linarith

/-- Claim C6 as stated is false: the lb→kg→lb round trip can move a value by
more than 0.01 because the half-cent rounding of the stored kg is amplified by
the factor 2.20462 before the display rounding.  At
`v = 2.20462 · 1.00499 = 2.2156210538`, the stored kg is 1.00 and the derived
lb is 2.20, an absolute error of ≈0.0156 > 0.01.  (The kg identity
`toKg v "kg" = round2 v` does hold; see the amended theorem.) -/
theorem roundtrip_exceeds_tolerance_cex :
    (0 : ℚ) < 11078105269 / 5000000000
    ∧ ¬ (|toLb (toKg (11078105269 / 5000000000) "lb") - 11078105269 / 5000000000|
          ≤ 1 / 100) := by
  constructor
  · norm_num
  · have h1 : toKg (11078105269 / 5000000000) "lb" = 1 := by
      norm_num [toKg, round2, lbPerKg]
    rw [h1]
    have h2 : toLb 1 = 11 / 5 := by
      norm_num [toLb, round2, lbPerKg]
    rw [h2]
    rw [show (11 / 5 : ℚ) - 11078105269 / 5000000000
          = -(78105269 / 5000000000) by norm_num]
    rw [abs_neg, abs_of_pos (by norm_num)]
    norm_num

/-- Claim C6 (amended): converting with tag "kg" is exactly the 2-decimal
rounding; the lb→kg→lb round trip reproduces a positive `v` within
(2.20462+1)/200 = 0.01602... absolute error — half a cent from each of the two
roundings, the stored one amplified by 2.20462 — but not within 0.01. -/
theorem unit_roundtrip_bounds (v : ℚ) (hv : 0 < v) :
    |toLb (toKg v "lb") - v| ≤ 160231 / 10000000
    ∧ toKg v "kg" = round2 v := by
  constructor
  · rw [toKg_lb, toLb]
    set k := round2 (v / lbPerKg) with hk
    have h1 : |round2 (k * lbPerKg) - k * lbPerKg| ≤ 1 / 200 := abs_round2_sub _
    have h2 : |k - v / lbPerKg| ≤ 1 / 200 := by
      rw [hk]; exact abs_round2_sub _
    have hc : (0 : ℚ) < lbPerKg := by norm_num [lbPerKg]
    have key : round2 (k * lbPerKg) - v
        = (round2 (k * lbPerKg) - k * lbPerKg) + (k - v / lbPerKg) * lbPerKg := by
      rw [sub_mul, div_mul_cancel₀ _ (ne_of_gt hc)]
      ring
    calc |round2 (k * lbPerKg) - v|
        ≤ |round2 (k * lbPerKg) - k * lbPerKg| + |(k - v / lbPerKg) * lbPerKg| := by
          rw [key]; exact abs_add _ _
      _ = |round2 (k * lbPerKg) - k * lbPerKg| + |k - v / lbPerKg| * lbPerKg := by
          rw [abs_mul, abs_of_pos hc]
      _ ≤ 1 / 200 + 1 / 200 * lbPerKg := by
          have := mul_le_mul_of_nonneg_right h2 (le_of_lt hc)
          linarith
      _ = 160231 / 10000000 := by norm_num [lbPerKg]
  · exact toKg_kg v

/-- Witness for `unit_roundtrip_bounds` at `v = 2`. -/
theorem unit_roundtrip_bounds_witness :
    |toLb (toKg 2 "lb") - 2| ≤ 160231 / 10000000
    ∧ toKg (2 : ℚ) "kg" = round2 2 :=
  unit_roundtrip_bounds 2 (by norm_num)

/-! ## Claim C4 -/

/-- Claim C4 as stated is false for non-numeric limits: `Number("abc")` is
NaN, `Math.min(500, NaN)` and `Math.max(1, NaN)` are NaN, so the effective
limit for `limit=abc` is NaN — not the claimed default 30. -/
theorem limit_nonnumeric_is_nan_cex :
    effectiveLimit (some "abc") = none ∧ effectiveLimit (some "abc") ≠ some 30 := by
  exact ⟨rfl, by decide⟩

/-- Claim C4 (amended): the effective limit is 30 only when the `limit` query
parameter is unspecified (the source substitutes the string "30"); a supplied
numeric limit is clamped into [1, 500] (so 0 and -5 floor to 1), but a
supplied non-numeric limit propagates NaN through the clamp instead of
defaulting to 30. -/
theorem limit_clamping :
    effectiveLimit none = some 30
    ∧ (∀ s n, jsToNumber s = some n →
        effectiveLimit (some s) = some (max 1 (min 500 n)))
    ∧ effectiveLimit (some "0") = some 1
    ∧ effectiveLimit (some "-5") = some 1 := by
  refine ⟨rfl, ?_, rfl, rfl⟩
  intro s n h
  simp [effectiveLimit, h, jsMin500, jsMax1]

/-- Witness for `limit_clamping`: a numeric limit above the ceiling clamps
down to 500. -/
theorem limit_clamping_witness :
    effectiveLimit (some "700") = some (max 1 (min 500 700)) :=
  limit_clamping.2.1 "700" 700 rfl

/-! ## Claim C5 -/

/-- Claim C5: the batch import endpoint reports `{ok:true, upserts:N}` with N
the number of samples submitted, and the empty batch is a no-op — nothing is
written and the response is `{ok:true, upserts:0}`. -/
theorem import_empty_batch_noop (db : List Row) (now : String) :
    importHandler db [] now = (⟨true, 0⟩, db)
    ∧ ∀ ss : List Sample, (importHandler db ss now).1 = ⟨true, ss.length⟩ :=
  ⟨rfl, fun _ => rfl⟩

/-! ## Claim C8 -/

/-- Claim C8: when the store read fails, GET /health/weight answers with the
empty list and status 200 (the catch branch returns `c.json([])`). -/
theorem get_read_failure_returns_empty (tok auth : Option String)
    (lq : Option String) (e : String) :
    getWeight tok auth (.error e) lq = ⟨200, []⟩ := by
  unfold getWeight
  cases effectiveLimit lq <;> rfl

/-! ## Claim C7 -/

/-- Claim C7: the GET projection returns rows in descending `startTime`
order, each output row carrying the stored `startTime` as `date`, the stored
`massKg` as `kg`, and `lb` derived from the stored kg at response time; and
for three stored rows with start times `T1 < T2 < T3` the response order is
`T3, T2, T1`. -/
theorem listRecent_sorted_projection :
    (∀ (db : List Row) (lim : Nat),
      (listRecent db lim).Pairwise (fun a b => b.date ≤ a.date)
      ∧ ∀ o ∈ listRecent db lim, ∃ r ∈ db, o = projectRow r)
    ∧ ∀ r1 r2 r3 : Row,
        r1.startDate < r2.startDate → r2.startDate < r3.startDate →
        (listRecent [r1, r2, r3] 30).map WeightRowOut.date
          = [r3.startDate, r2.startDate, r1.startDate] := by
  constructor
  · intro db lim
    haveI : IsTotal Row (fun a b => b.startDate ≤ a.startDate) :=
      ⟨fun a b => le_total b.startDate a.startDate⟩
    haveI : IsTrans Row (fun a b => b.startDate ≤ a.startDate) :=
      ⟨fun _ _ _ hab hbc => le_trans hbc hab⟩
    constructor
    · have hs : (db.insertionSort (fun a b : Row => b.startDate ≤ a.startDate)).Pairwise
          (fun a b : Row => b.startDate ≤ a.startDate) :=
        List.sorted_insertionSort (fun a b : Row => b.startDate ≤ a.startDate) db
      have ht : ((db.insertionSort (fun a b : Row => b.startDate ≤ a.startDate)).take
          lim).Pairwise (fun a b : Row => b.startDate ≤ a.startDate) :=
        List.Pairwise.sublist (List.take_sublist _ _) hs
      exact List.Pairwise.map projectRow (fun _ _ h => h) ht
    · intro o ho
      obtain ⟨x, hx, rfl⟩ := List.mem_map.1 ho
      have hx' := List.mem_of_mem_take hx
      exact ⟨x, (List.perm_insertionSort _ db).mem_iff.mp hx', rfl⟩
  · intro r1 r2 r3 h12 h23
    have h13 := h12.trans h23
    simp only [listRecent, List.insertionSort, List.orderedInsert]
    rw [if_neg (not_le.mpr h23)]
    simp only [List.orderedInsert]
    rw [if_neg (not_le.mpr h13), if_neg (not_le.mpr h12)]
    rfl

/-- Witness for `listRecent_sorted_projection` at a concrete three-row store
with dates `"T1" < "T2" < "T3"`. -/
theorem listRecent_sorted_projection_witness :
    (listRecent [⟨"u1", "T1", "T1", 60, "s", "c", "m"⟩,
                 ⟨"u2", "T2", "T2", 61, "s", "c", "m"⟩,
                 ⟨"u3", "T3", "T3", 62, "s", "c", "m"⟩] 30).map WeightRowOut.date
      = ["T3", "T2", "T1"] :=
  listRecent_sorted_projection.2
    ⟨"u1", "T1", "T1", 60, "s", "c", "m"⟩
    ⟨"u2", "T2", "T2", 61, "s", "c", "m"⟩
    ⟨"u3", "T3", "T3", 62, "s", "c", "m"⟩
    (String.lt_iff_toList_lt.mpr (by decide))
    (String.lt_iff_toList_lt.mpr (by decide))

/-! ## Claim C9 -/

/-- Claim C9 as stated is false when the payload's `id` already exists in the
store: the payload is accepted (200) but the conflict branch keeps the old
`startDate`/`endDate`/`sourceBundleId`, so the stored timestamps do not equal
the supplied `timestamp` even though `startDate`/`endDate` were absent. -/
theorem post_existing_id_keeps_old_dates_cex :
    postWeight (some "t") (some "Bearer t")
        ⟨some 80, some "kg", some "NEW", some "a", none, none, none⟩
        "fresh" "NOW"
        [⟨"a", "OLD", "OLDE", 50, "oldsrc", "c0", "u0"⟩]
      = (.ok200, [⟨"a", "OLD", "OLDE", toKg 80 "kg", "oldsrc", "c0", "NOW"⟩])
    ∧ ("OLD" : String) ≠ "NEW" := ⟨rfl, by decide⟩

/-- Claim C9 (amended): for an accepted single-form payload whose resolved
`id` is NOT yet in the store, absent (or trim-empty) `startDate`/`endDate`
default to the supplied `timestamp` and an absent (or trim-empty)
`sourceBundleId` defaults to `"manual-entry"` in the inserted row (which also
gets `createdAt = updatedAt = now`); when the `id` already exists, the
pre-existing values are retained (see the counterexample). -/
theorem post_insert_defaults (tok auth : Option String) (raw : RawBody)
    (fresh now : String) (db : List Row) (body : ParsedBody)
    (hauth : requireBearer tok auth = .vnull)
    (hparse : zodParse raw = some body)
    (hstart : ∀ s ∈ body.startDate, jsTrim s = "")
    (hend : ∀ s ∈ body.endDate, jsTrim s = "")
    (hsrc : ∀ s ∈ body.sourceBundleId, jsTrim s = "")
    (hts : body.timestamp ≠ "")
    (huuid : resolveUuid body.uuid fresh ≠ "")
    (hnew : lookupW db (resolveUuid body.uuid fresh) = none) :
    postWeight tok auth raw fresh now db
      = (.ok200,
         db ++ [⟨resolveUuid body.uuid fresh, body.timestamp, body.timestamp,
                 toKg body.weight body.unit, "manual-entry", now, now⟩]) := by
  have h1 : jsTrimOr body.startDate body.timestamp = body.timestamp := by
    cases hsd : body.startDate with
    | none => rfl
    | some s =>
      have hts' := hstart s (by rw [hsd]; rfl)
      simp [jsTrimOr, hts']
  have h2 : jsTrimOr body.endDate body.timestamp = body.timestamp := by
    cases hed : body.endDate with
    | none => rfl
    | some s =>
      have hts' := hend s (by rw [hed]; rfl)
      simp [jsTrimOr, hts']
  have h3 : jsTrimOr body.sourceBundleId "manual-entry" = "manual-entry" := by
    cases hsc : body.sourceBundleId with
    | none => rfl
    | some s =>
      have hts' := hsrc s (by rw [hsc]; rfl)
      simp [jsTrimOr, hts']
  simp only [postWeight, hauth, AuthOutcome.truthy, Bool.false_eq_true,
    if_false, hparse, h1, h2, h3]
  rw [if_neg huuid, if_neg hts, if_neg hts,
    if_neg (by decide : ¬ ("manual-entry" : String) = "")]
  rw [upsertWeight_of_lookup_none db _ _ _ _ _ now hnew]

/-- Witness for `post_insert_defaults`: a fresh-id payload with only `weight`,
`unit`, `timestamp` and `uuid` set, against the empty store. -/
theorem post_insert_defaults_witness :
    postWeight (some "t") (some "Bearer t")
        ⟨some 80, some "kg", some "TS", some "id9", none, none, none⟩ "f" "N" []
      = (.ok200,
         [] ++ [⟨resolveUuid (some "id9") "f", "TS", "TS", toKg 80 "kg",
                 "manual-entry", "N", "N"⟩]) :=
  post_insert_defaults (some "t") (some "Bearer t")
    ⟨some 80, some "kg", some "TS", some "id9", none, none, none⟩ "f" "N" []
    ⟨80, "kg", "TS", some "id9", none, none, none⟩ rfl rfl
    (by intro s hs; simp at hs) (by intro s hs; simp at hs)
    (by intro s hs; simp at hs) (by decide) (by decide) rfl

/-! ## Claim C10 -/

/-- Claim C10: the GET /health/weight handler performs no bearer-token check,
so its response is identical across any change of configured token and/or
presented Authorization header. -/
theorem get_independent_of_auth (t1 t2 a1 a2 : Option String)
    (fetch : Except String (List Row)) (lq : Option String) :
    getWeight t1 a1 fetch lq = getWeight t2 a2 fetch lq := rfl

end HealthBridge
